import Mathlib

/-!
# Verification of the Keystone schema-resolution engine

A shallow embedding of `packages/core/src/lib/core/types-for-lists.ts`:
the enablement resolver (`getIsEnabled`), the field initialiser
(`getListsWithInitialisedFields`), the type-graph field-set thunks
(`getListGraphqlTypes`), and the orchestrator (`initialiseLists`) with its
cascading-disablement pass.

JavaScript configuration values that may be booleans, `undefined`,
functions, strings, numbers, `null` or arrays are embedded as the
inductive `JsVal`, with JS truthiness, `??` (nullish coalescing), `&&`,
`typeof`-membership checks and `.includes` dispatch modelled explicitly.
Throwing code is embedded in `Except String`.
-/

namespace Keystone

/-- A JavaScript configuration value, as far as the engine inspects one:
booleans, `undefined`, `null`, functions (opaque), strings, numbers, and
arrays of operation names. -/
inductive JsVal : Type where
  | jsbool (b : Bool)
  | undef
  | jsnull
  | func
  | str (s : String)
  | num (n : Int)
  | arr (ops : List String)
deriving DecidableEq, Repr

/-- JS truthiness: `false`, `undefined`, `null`, `''` and `0` are falsy;
functions, non-empty strings, non-zero numbers and all arrays are truthy. -/
def JsVal.truthy : JsVal → Bool
  | .jsbool b => b
  | .undef => false
  | .jsnull => false
  | .func => true
  | .str s => !s.isEmpty
  | .num n => n != 0
  | .arr _ => true

/-- Is the value `undefined` or `null` (the values `??` skips over)? -/
def JsVal.isNullish : JsVal → Bool
  | .undef => true
  | .jsnull => true
  | _ => false

/-- JS nullish coalescing `a ?? b`. -/
def jsCoalesce (a b : JsVal) : JsVal :=
  if a.isNullish then b else a

/-- JS `a && b` for a boolean left operand: short-circuits to `false`
without evaluating `b`. -/
def jsAnd (a : Bool) (b : JsVal) : JsVal :=
  if a then b else .jsbool false

/-- `['boolean', 'undefined', 'function'].includes(typeof x)` — note that
`typeof null` is `'object'`, so `null` does not pass. -/
def isBoolUndefOrFunction : JsVal → Bool
  | .jsbool _ => true
  | .undef => true
  | .func => true
  | _ => false

/-- Does the character list `needle` occur as a contiguous run inside
`hay`?  Structural recursion on `hay` so the kernel can evaluate it. -/
def charsContain (hay needle : List Char) : Bool :=
  needle.isPrefixOf hay ||
    match hay with
    | [] => false
    | _ :: t => charsContain t needle

/-- JS `String.prototype.includes`: substring containment (the empty
string is contained in everything). -/
def strIncludes (hay needle : String) : Bool :=
  charsContain hay.data needle.data

/-- JS `x.includes(s)`: arrays test membership, strings test substring
containment, and every other value throws a `TypeError` because it has no
`includes` method. -/
def jsIncludes (x : JsVal) (s : String) : Except String Bool :=
  match x with
  | .arr ops => .ok (ops.contains s)
  | .str t => .ok (strIncludes t s)
  | _ => .error "TypeError: omit.includes is not a function"

/-- JS `x?.includes(s)` followed by a truthiness check: when `x` is
nullish the optional chain yields `undefined` (falsy); otherwise it is a
plain `includes` call. -/
def jsOptIncludes (x : JsVal) (s : String) : Except String Bool :=
  match x with
  | .undef => .ok false
  | .jsnull => .ok false
  | _ => jsIncludes x s

/-- `throwIfNotAFilter` (types-for-lists.ts, lines 75–81): accepts
booleans, `undefined` and functions, throws on everything else. -/
def throwIfNotAFilter (x : JsVal) (listKey fieldKey : String) : Except String Unit :=
  if isBoolUndefOrFunction x then .ok ()
  else .error ("Configuration option '" ++ listKey ++ "." ++ fieldKey ++
    "' must be either a boolean value or a function.")

/-- List-level resolved enablement (`IsEnabled`, lines 65–73).  The
`filter` and `orderBy` slots hold whatever JS value the resolution
produced (a boolean or a function in well-typed configs). -/
structure IsEnabled where
  type : Bool
  query : Bool
  create : Bool
  update : Bool
  delete : Bool
  filter : JsVal
  orderBy : JsVal
deriving DecidableEq, Repr

/-- Per-list configuration, restricted to what `types-for-lists.ts`
inspects.  `omit` stands for `listConfig.graphql?.omit` (already
`undefined` when `graphql` is absent); `fields` is an association list in
JS object insertion order. -/
structure FieldConfig where
  isFilterable : JsVal
  isOrderable : JsVal
  /-- `f.graphql?.omit` of the descriptor returned by the field
  constructor: `true`, `undefined`, or an array drawn from
  `read`/`create`/`update` in well-typed configs. -/
  «omit» : JsVal
  /-- is `f.output` present (truthy)? -/
  hasOutput : Bool
  /-- keys of `f.extraOutputFields`. -/
  extraOutputFieldKeys : List String
  /-- `f.dbField.kind === 'relation'` together with `f.dbField.list`. -/
  dbFieldRelationTarget : Option String
  /-- `f.input?.create`: `none` if absent, `some b` if present with an
  `arg` iff `b`. -/
  inputCreate : Option Bool
  /-- `f.input?.update`, same convention. -/
  inputUpdate : Option Bool
  /-- `f.input?.where`, same convention. -/
  inputWhere : Option Bool
  /-- `f.input?.uniqueWhere`, same convention. -/
  inputUniqueWhere : Option Bool
  /-- `f.input?.orderBy`, same convention. -/
  inputOrderBy : Option Bool
deriving DecidableEq, Repr

structure ListConfig where
  «omit» : JsVal
  defaultIsFilterable : JsVal
  defaultIsOrderable : JsVal
  /-- the descriptors returned by the field constructor functions (the
  constructor-call indirection of lines 145–157 is elided: each
  `fieldFunc` is represented directly by the descriptor it returns). -/
  fields : List (String × FieldConfig)
  isSingleton : Option Bool
deriving DecidableEq, Repr

/-- The body of the `getIsEnabled` loop (lines 86–127) for one list. -/
def getIsEnabledForList (listKey : String) (lc : ListConfig) :
    Except String IsEnabled := do
  if !lc.«omit».truthy then
    throwIfNotAFilter lc.defaultIsFilterable listKey "defaultIsFilterable"
    throwIfNotAFilter lc.defaultIsOrderable listKey "defaultIsOrderable"
  if lc.«omit» = .jsbool true then
    return { type := false, query := false, create := false, update := false,
             delete := false, filter := .jsbool false, orderBy := .jsbool false }
  else if lc.«omit» = .undef then
    return { type := true, query := true, create := true, update := true,
             delete := true,
             filter := jsCoalesce lc.defaultIsFilterable (.jsbool true),
             orderBy := jsCoalesce lc.defaultIsOrderable (.jsbool true) }
  else
    let q ← jsIncludes lc.«omit» "query"
    let c ← jsIncludes lc.«omit» "create"
    let u ← jsIncludes lc.«omit» "update"
    let d ← jsIncludes lc.«omit» "delete"
    return { type := true, query := !q, create := !c, update := !u, delete := !d,
             filter := jsCoalesce lc.defaultIsFilterable (.jsbool true),
             orderBy := jsCoalesce lc.defaultIsOrderable (.jsbool true) }

/-- Fail-fast effectful map, the shape of every `for … of` loop with
`throw` in the source. -/
def mapME (f : α → Except String β) : List α → Except String (List β)
  | [] => .ok []
  | x :: xs => do
    let y ← f x
    let ys ← mapME f xs
    return y :: ys

/-- `getIsEnabled` (lines 83–130): resolve list-level enablement for every
list, in declaration order, failing on the first configuration error. -/
def getIsEnabled (cfg : List (String × ListConfig)) :
    Except String (List (String × IsEnabled)) :=
  mapME (fun p => (getIsEnabledForList p.1 p.2).map fun e => (p.1, e)) cfg

/-- Field-level resolved enablement
(`InitialisedField.graphql.isEnabled`, lines 33–40). -/
structure FieldIsEnabled where
  read : Bool
  create : Bool
  update : Bool
  filter : JsVal
  orderBy : JsVal
deriving DecidableEq, Repr

/-- The `_isEnabled` object computed for one field (lines 164–174):
`read`/`create`/`update` from the field's own omit spec, and
`filter`/`orderBy` gated by `read` and defaulted from the list level. -/
def resolveFieldIsEnabled (listEnabled : IsEnabled) (f : FieldConfig) :
    Except String FieldIsEnabled := do
  if f.«omit» = .jsbool true then
    -- `omit !== true && …` short-circuits, so `.includes` is never called
    return { read := false, create := false, update := false,
             filter := .jsbool false, orderBy := .jsbool false }
  else
    let omitRead ← jsOptIncludes f.«omit» "read"
    let omitUpdate ← jsOptIncludes f.«omit» "update"
    let omitCreate ← jsOptIncludes f.«omit» "create"
    let read := !omitRead
    return { read := read, create := !omitCreate, update := !omitUpdate,
             filter := jsAnd read (jsCoalesce f.isFilterable listEnabled.filter),
             orderBy := jsAnd read (jsCoalesce f.isOrderable listEnabled.orderBy) }

/-- A resolved field: its enablement plus the descriptor content the
type-graph thunks and the cascading pass inspect. -/
structure InitialisedField where
  isEnabled : FieldIsEnabled
  hasOutput : Bool
  extraOutputFieldKeys : List String
  dbFieldRelationTarget : Option String
  inputCreate : Option Bool
  inputUpdate : Option Bool
  inputWhere : Option Bool
  inputUniqueWhere : Option Bool
  inputOrderBy : Option Bool
deriving DecidableEq, Repr

/-- One iteration of the field loop of `getListsWithInitialisedFields`
(lines 145–187): validate `isFilterable`/`isOrderable`, resolve the
field's enablement, and carry the descriptor forward. -/
def initialiseField (listEnabled : IsEnabled) (listKey : String)
    (f : FieldConfig) : Except String InitialisedField := do
  throwIfNotAFilter f.isFilterable listKey "isFilterable"
  throwIfNotAFilter f.isOrderable listKey "isOrderable"
  let e ← resolveFieldIsEnabled listEnabled f
  return { isEnabled := e, hasOutput := f.hasOutput,
           extraOutputFieldKeys := f.extraOutputFieldKeys,
           dbFieldRelationTarget := f.dbFieldRelationTarget,
           inputCreate := f.inputCreate, inputUpdate := f.inputUpdate,
           inputWhere := f.inputWhere, inputUniqueWhere := f.inputUniqueWhere,
           inputOrderBy := f.inputOrderBy }

/-- All fields of one list, in declaration order. -/
def initialiseFieldsForList (listEnabled : IsEnabled) (listKey : String)
    (lc : ListConfig) : Except String (List (String × InitialisedField)) :=
  mapME (fun p => (initialiseField listEnabled listKey p.2).map fun f => (p.1, f))
    lc.fields

/-- The default values baked into `findManyArgs` (lines 356–368).  The
`where` default is a JS object literal, embedded first-order as an
association list field → (operator → string); `orderBy` defaults to the
empty list; `take` has no default; `skip` defaults to `0`. -/
structure FindManyArgsModel where
  whereDefault : Option (List (String × List (String × String)))
  orderByDefault : Option (List (List (String × String)))
  takeDefault : Option Int
  skipDefault : Option Int
deriving DecidableEq, Repr

/-- `findManyArgs` (lines 356–368), keeping only argument default values:
`where` defaults to `{ id: { equals: '1' } }` when `listConfig.isSingleton`
is truthy and to `{}` otherwise. -/
def findManyArgs (lc : ListConfig) : FindManyArgsModel :=
  { whereDefault :=
      some (if lc.isSingleton = some true then [("id", [("equals", "1")])] else [])
    orderByDefault := some []
    takeDefault := none
    skipDefault := some 0 }

/-- The per-list state the orchestrator threads through its passes: the
shared (in the source: in-place mutated) enablement object, the resolved
fields, and the eagerly computed pieces of the type bundle. -/
structure ListState where
  isEnabled : IsEnabled
  fields : List (String × InitialisedField)
  isSingleton : Bool
  findMany : FindManyArgsModel
deriving DecidableEq, Repr

/-- `getListsWithInitialisedFields` (lines 134–214), restricted to the
components the claims inspect.  It walks the config in declaration order;
the enablement entry for each list is the one `getIsEnabled` produced for
the same key (positional, since both passes iterate `Object.entries` of
the same object). -/
def getListsWithInitialisedFields (cfg : List (String × ListConfig))
    (en : List (String × IsEnabled)) : Except String (List (String × ListState)) :=
  mapME
    (fun x =>
      (initialiseFieldsForList x.2.2 x.1.1 x.1.2).map fun fs =>
        (x.1.1,
          { isEnabled := x.2.2, fields := fs,
            isSingleton := x.1.2.isSingleton.getD false,
            findMany := findManyArgs x.1.2 }))
    (cfg.zip en)

/-- `hasAnEnabledCreateField` (lines 516–521): some field has a create
input with an `arg` and create enablement. -/
def hasAnEnabledCreateField (l : ListState) : Bool :=
  l.fields.any fun p => p.2.inputCreate = some true && p.2.isEnabled.create

/-- `hasAnEnabledUpdateField` (lines 517–525): some field has an update
input object (the source checks `field.input?.update`, not
`field.input?.update?.arg`) and update enablement. -/
def hasAnEnabledUpdateField (l : ListState) : Bool :=
  l.fields.any fun p => p.2.inputUpdate.isSome && p.2.isEnabled.update

/-- The cascading-disablement pass of `initialiseLists` (lines 515–535):
a graphQL type cannot have zero fields, so if no field is enabled for
create (resp. update) the list-level capability is forced off. -/
def cascadeCreateUpdate (l : ListState) : ListState :=
  { l with
    isEnabled :=
      { l.isEnabled with
        create := if hasAnEnabledCreateField l then l.isEnabled.create else false
        update := if hasAnEnabledUpdateField l then l.isEnabled.update else false } }

/-- `initialiseLists` (lines 466–552), eliding relationship resolution
(`resolveRelationships` lives in another module; the claims treat each
field's `dbField` as already resolved) and the final `assertFieldsValid`
pass.  The source mutates `list.graphql.isEnabled` in place; here the
cascade is an explicit state update applied to every list. -/
def initialiseLists (cfg : List (String × ListConfig)) :
    Except String (List (String × ListState)) := do
  let en ← getIsEnabled cfg
  let pre ← getListsWithInitialisedFields cfg en
  return pre.map fun y => (y.1, cascadeCreateUpdate y.2)

/-! ## Type-graph field-set thunks (`getListGraphqlTypes`, lines 216–456)

Each generated type's field set is a thunk evaluated only after
`initialiseLists` has finished, reading the final `fields` off the shared
registry and the final, in-place-mutated `isEnabled` objects.  The
definitions below compute the key sets those thunks produce, as functions
of the *final* resolved state. -/

/-- The third disjunct of the output-suppression test (lines 239–240):
`field.dbField.kind === 'relation' &&
!intermediateLists[field.dbField.list].graphql.isEnabled.query`, with
`queryEnabled` standing for the registry lookup
`t ↦ intermediateLists[t].graphql.isEnabled.query`. -/
def relationTargetQueryDisabled (queryEnabled : String → Bool)
    (f : InitialisedField) : Bool :=
  match f.dbFieldRelationTarget with
  | some t => !queryEnabled t
  | none => false

/-- One field's contribution to the output object type (lines 234–261):
nothing when the field has no `output`, is read-disabled, or is a relation
field whose target list's `query` enablement is off; otherwise its own key
followed by its `extraOutputFields` keys. -/
def outputEntryForField (queryEnabled : String → Bool) (fieldPath : String)
    (f : InitialisedField) : List String :=
  if !f.hasOutput || !f.isEnabled.read ||
      relationTargetQueryDisabled queryEnabled f then
    []
  else
    fieldPath :: f.extraOutputFieldKeys

/-- The output object type's field keys (the `fields` thunk of `output`,
lines 229–265). -/
def outputTypeFieldKeys (queryEnabled : String → Bool)
    (fields : List (String × InitialisedField)) : List String :=
  fields.flatMap fun p => outputEntryForField queryEnabled p.1 p.2

/-- Does a field qualify for the unique-filter input (lines 273–281)?
It must declare a `uniqueWhere` argument and have truthy `read` and
`filter` enablement. -/
def uniqueWhereQualifies (f : InitialisedField) : Bool :=
  f.inputUniqueWhere = some true && f.isEnabled.read && f.isEnabled.filter.truthy

/-- The unique-filter input's field keys (the `fields` thunk of
`uniqueWhere`, lines 267–289): the qualifying fields' keys, with `id`
always added afterwards (a later JS object-literal entry overwrites an
existing `id` key in place rather than appending a second one). -/
def uniqueWhereKeys (fields : List (String × InitialisedField)) : List String :=
  let entries := fields.filterMap fun p =>
    if uniqueWhereQualifies p.2 then some p.1 else none
  if entries.contains "id" then entries else entries ++ ["id"]

/-- Keys of `relateToManyForCreateInput` (lines 373–384): nested `create`
only when the (final) list-level create enablement is on; `connect`
always. -/
def relateToManyForCreateKeys (e : IsEnabled) : List String :=
  (if e.create then ["create"] else []) ++ ["connect"]

/-- Keys of `relateToManyForUpdateInput` (lines 386–401). -/
def relateToManyForUpdateKeys (e : IsEnabled) : List String :=
  ["disconnect", "set"] ++ (if e.create then ["create"] else []) ++ ["connect"]

/-- Keys of `relateToOneForCreateInput` (lines 403–412). -/
def relateToOneForCreateKeys (e : IsEnabled) : List String :=
  (if e.create then ["create"] else []) ++ ["connect"]

/-- Keys of `relateToOneForUpdateInput` (lines 414–424). -/
def relateToOneForUpdateKeys (e : IsEnabled) : List String :=
  (if e.create then ["create"] else []) ++ ["connect", "disconnect"]

/-- The four relation-input variants of one list.  They are only
constructed when the list's `type` enablement is on (line 372); their
field thunks close over the list's `isEnabled` object, which the
orchestrator mutates in place, so by evaluation time they see the final,
post-cascading enablement — which is what they receive here. -/
structure RelateToVariants where
  manyForCreate : Option (List String)
  manyForUpdate : Option (List String)
  oneForCreate : Option (List String)
  oneForUpdate : Option (List String)
deriving DecidableEq, Repr

/-- The relation-input variants a resolved list exposes, as their field
thunks evaluate after `initialiseLists` (see `RelateToVariants`). -/
def listRelateTo (l : ListState) : RelateToVariants :=
  if l.isEnabled.type then
    { manyForCreate := some (relateToManyForCreateKeys l.isEnabled)
      manyForUpdate := some (relateToManyForUpdateKeys l.isEnabled)
      oneForCreate := some (relateToOneForCreateKeys l.isEnabled)
      oneForUpdate := some (relateToOneForUpdateKeys l.isEnabled) }
  else
    { manyForCreate := none, manyForUpdate := none
      oneForCreate := none, oneForUpdate := none }

instance exceptDecEq {ε α : Type} [DecidableEq ε] [DecidableEq α] :
    DecidableEq (Except ε α) := fun x y =>
  match x, y with
  | .ok a, .ok b =>
    if h : a = b then isTrue (by rw [h])
    else isFalse (by intro hc; cases hc; exact h rfl)
  | .error e, .error e' =>
    if h : e = e' then isTrue (by rw [h])
    else isFalse (by intro hc; cases hc; exact h rfl)
  | .ok _, .error _ => isFalse (by intro hc; cases hc)
  | .error _, .ok _ => isFalse (by intro hc; cases hc)

/-! ## Concrete configurations for witnesses and counterexamples -/

/-- A plain scalar field descriptor with every capability declared. -/
def textField : FieldConfig :=
  { isFilterable := .undef, isOrderable := .undef, «omit» := .undef,
    hasOutput := true, extraOutputFieldKeys := [],
    dbFieldRelationTarget := none,
    inputCreate := some true, inputUpdate := some true,
    inputWhere := some true, inputUniqueWhere := none, inputOrderBy := some true }

/-- A list declaration with no omissions and no overrides. -/
def plainList (fields : List (String × FieldConfig)) : ListConfig :=
  { «omit» := .undef, defaultIsFilterable := .undef, defaultIsOrderable := .undef,
    fields := fields, isSingleton := none }

def c1Lc : ListConfig := plainList [("title", textField)]

def c1Cfg : List (String × ListConfig) := [("Post", c1Lc)]

def c1Field : InitialisedField :=
  { isEnabled := { read := true, create := true, update := true,
                   filter := .jsbool true, orderBy := .jsbool true },
    hasOutput := true, extraOutputFieldKeys := [], dbFieldRelationTarget := none,
    inputCreate := some true, inputUpdate := some true, inputWhere := some true,
    inputUniqueWhere := none, inputOrderBy := some true }

def c1List : ListState :=
  { isEnabled := { type := true, query := true, create := true, update := true,
                   delete := true, filter := .jsbool true, orderBy := .jsbool true },
    fields := [("title", c1Field)], isSingleton := false,
    findMany := { whereDefault := some [], orderByDefault := some [],
                  takeDefault := none, skipDefault := some 0 } }

def c1Out : List (String × ListState) := [("Post", c1List)]

def c2Field : FieldConfig := { textField with «omit» := .arr ["create", "update"] }

def c2Lc : ListConfig := plainList [("body", c2Field)]

def c2Cfg : List (String × ListConfig) := [("Note", c2Lc)]

def c2ResolvedField : InitialisedField :=
  { c1Field with
    isEnabled := { read := true, create := false, update := false,
                   filter := .jsbool true, orderBy := .jsbool true } }

def c2List : ListState :=
  { c1List with
    isEnabled := { type := true, query := true, create := false, update := false,
                   delete := true, filter := .jsbool true, orderBy := .jsbool true },
    fields := [("body", c2ResolvedField)] }

def c2Out : List (String × ListState) := [("Note", c2List)]

def c5Lc : ListConfig :=
  { plainList [("title", textField)] with «omit» := .jsbool true }

def c5Cfg : List (String × ListConfig) := [("Secret", c5Lc)]

def c5ResolvedField : InitialisedField :=
  { c1Field with
    isEnabled := { read := true, create := true, update := true,
                   filter := .jsbool false, orderBy := .jsbool false } }

def c5List : ListState :=
  { isEnabled := { type := false, query := false, create := false, update := false,
                   delete := false, filter := .jsbool false, orderBy := .jsbool false },
    fields := [("title", c5ResolvedField)], isSingleton := false,
    findMany := { whereDefault := some [], orderByDefault := some [],
                  takeDefault := none, skipDefault := some 0 } }

def c5Out : List (String × ListState) := [("Secret", c5List)]

/-- A query-enablement lookup in which only the `Hidden` list has `query`
disabled. -/
def c3Qe : String → Bool := fun t => !(t == "Hidden")

/-- A resolved relation field targeting the query-disabled `Hidden`
list. -/
def c3RelField : InitialisedField :=
  { c1Field with dbFieldRelationTarget := some "Hidden" }

def c3Fields : List (String × InitialisedField) :=
  [("title", c1Field), ("author", c3RelField)]

def c10Lc : ListConfig :=
  { plainList [("title", textField)] with isSingleton := some true }

def c10Cfg : List (String × ListConfig) := [("Config", c10Lc)]

def c10List : ListState :=
  { c1List with
    isSingleton := true,
    findMany := { whereDefault := some [("id", [("equals", "1")])],
                  orderByDefault := some [], takeDefault := none,
                  skipDefault := some 0 } }

def c10Out : List (String × ListState) := [("Config", c10List)]

/-- Does the value provide an `includes` method (JS arrays and strings
do; booleans, `null`, numbers and functions do not)? -/
def hasIncludesMethod : JsVal → Bool
  | .arr _ => true
  | .str _ => true
  | _ => false

def c6Lc : ListConfig :=
  { plainList [("title", textField)] with «omit» := .str "query" }

def c6Cfg : List (String × ListConfig) := [("Post6", c6Lc)]

def c6List : ListState :=
  { c1List with
    isEnabled := { type := true, query := false, create := true, update := true,
                   delete := true, filter := .jsbool true, orderBy := .jsbool true } }

def c6Out : List (String × ListState) := [("Post6", c6List)]

def c6NullLc : ListConfig :=
  { plainList [("title", textField)] with «omit» := .jsnull }

def c7Lc : ListConfig :=
  { «omit» := .arr ["query"], defaultIsFilterable := .str "yes",
    defaultIsOrderable := .undef, fields := [("title", textField)],
    isSingleton := none }

def c7Cfg : List (String × ListConfig) := [("Draft", c7Lc)]

def c7ResolvedField : InitialisedField :=
  { c1Field with
    isEnabled := { read := true, create := true, update := true,
                   filter := .str "yes", orderBy := .jsbool true } }

def c7List : ListState :=
  { isEnabled := { type := true, query := false, create := true, update := true,
                   delete := true, filter := .str "yes", orderBy := .jsbool true },
    fields := [("title", c7ResolvedField)], isSingleton := false,
    findMany := { whereDefault := some [], orderByDefault := some [],
                  takeDefault := none, skipDefault := some 0 } }

def c7Out : List (String × ListState) := [("Draft", c7List)]

def c7FalsyLc : ListConfig :=
  { plainList [] with defaultIsFilterable := .str "yes" }

def c8Lc : ListConfig := plainList [("id", textField)]

def c8Cfg : List (String × ListConfig) := [("Item", c8Lc)]

def c8List : ListState := { c1List with fields := [("id", c1Field)] }

def c8Out : List (String × ListState) := [("Item", c8List)]

/-- A field descriptor that declares a unique-lookup argument. -/
def uniqueField : FieldConfig := { textField with inputUniqueWhere := some true }

def c8wLc : ListConfig := plainList [("slug", uniqueField), ("note", textField)]

def c8wCfg : List (String × ListConfig) := [("Doc", c8wLc)]

def c8wSlugField : InitialisedField := { c1Field with inputUniqueWhere := some true }

def c8wList : ListState :=
  { c1List with fields := [("slug", c8wSlugField), ("note", c1Field)] }

def c8wOut : List (String × ListState) := [("Doc", c8wList)]

/-! ## Proof infrastructure -/

@[simp] theorem ok_bind (a : α) (f : α → Except String β) :
    (Except.ok a >>= f) = f a := rfl

@[simp] theorem error_bind (e : String) (f : α → Except String β) :
    ((Except.error e : Except String α) >>= f) = .error e := rfl

@[simp] theorem map_ok (f : α → β) (a : α) :
    (Except.ok a : Except String α).map f = .ok (f a) := rfl

@[simp] theorem map_error (f : α → β) (e : String) :
    (Except.error e : Except String α).map f = .error e := rfl

@[simp] theorem pure_eq_ok (a : α) : (pure a : Except String α) = .ok a := rfl

theorem mapME_ok_iff {f : α → Except String β} :
    ∀ {xs : List α} {ys : List β},
      mapME f xs = .ok ys ↔ List.Forall₂ (fun x y => f x = .ok y) xs ys := by
  intro xs
  induction xs with
  | nil =>
    intro ys
    constructor
    · intro h
      have : ([] : List β) = ys := by simpa [mapME] using h
      subst this
      exact .nil
    · intro h
      cases h
      rfl
  | cons x xs ih =>
    intro ys
    constructor
    · intro h
      cases hfx : f x with
      | error e => simp [mapME, hfx] at h
      | ok y =>
        cases hrest : mapME f xs with
        | error e => simp [mapME, hfx, hrest] at h
        | ok ys' =>
          simp only [mapME, hfx, hrest, ok_bind, pure_eq_ok, Except.ok.injEq] at h
          subst h
          exact .cons hfx (ih.mp hrest)
    · intro h
      cases h with
      | cons hxy hrest =>
        simp [mapME, hxy, ih.mpr hrest]

theorem forall₂_mem_right {R : α → β → Prop} {xs : List α} {ys : List β}
    (h : List.Forall₂ R xs ys) {y : β} (hy : y ∈ ys) :
    ∃ x, x ∈ xs ∧ R x y := by
  induction h with
  | nil => cases hy
  | cons hR hrest ih =>
    rcases List.mem_cons.mp hy with rfl | hy'
    · exact ⟨_, List.mem_cons_self _ _, hR⟩
    · obtain ⟨x, hx, hRx⟩ := ih hy'
      exact ⟨x, List.mem_cons_of_mem _ hx, hRx⟩

/-- Success of `getIsEnabled` pointwise: keys are preserved and each
enablement entry comes from `getIsEnabledForList` on the entry of the
same position. -/
theorem getIsEnabled_forall₂ {cfg : List (String × ListConfig)}
    {en : List (String × IsEnabled)} (h : getIsEnabled cfg = .ok en) :
    List.Forall₂ (fun p q => q.1 = p.1 ∧ getIsEnabledForList p.1 p.2 = .ok q.2)
      cfg en := by
  refine (mapME_ok_iff.mp h).imp ?_
  intro p q hpq
  cases hq : getIsEnabledForList p.1 p.2 with
  | error e => rw [hq] at hpq; simp at hpq
  | ok e =>
    rw [hq] at hpq
    simp only [map_ok, Except.ok.injEq] at hpq
    subst hpq
    exact ⟨rfl, rfl⟩

/-- Success of the field-initialisation pass pointwise. -/
theorem getListsWithInitialisedFields_forall₂ {cfg : List (String × ListConfig)}
    {en : List (String × IsEnabled)} {pre : List (String × ListState)}
    (h : getListsWithInitialisedFields cfg en = .ok pre) :
    List.Forall₂
      (fun x y => ∃ fs,
        initialiseFieldsForList x.2.2 x.1.1 x.1.2 = .ok fs ∧
        y = (x.1.1,
          { isEnabled := x.2.2, fields := fs,
            isSingleton := x.1.2.isSingleton.getD false,
            findMany := findManyArgs x.1.2 }))
      (cfg.zip en) pre := by
  refine (mapME_ok_iff.mp h).imp ?_
  intro x y hxy
  cases hf : initialiseFieldsForList x.2.2 x.1.1 x.1.2 with
  | error e => rw [hf] at hxy; simp at hxy
  | ok fs =>
    rw [hf] at hxy
    simp only [map_ok, Except.ok.injEq] at hxy
    exact ⟨fs, rfl, hxy.symm⟩

/-- What `initialiseLists` produces, position by position: the output has
one entry per configured list, same key, and its state is the cascade
applied to the initialised-fields state built from that list's resolved
enablement. -/
theorem initialiseLists_get {cfg : List (String × ListConfig)}
    {out : List (String × ListState)} (h : initialiseLists cfg = .ok out) :
    cfg.length = out.length ∧
      ∀ (i : Nat) (h1 : i < cfg.length) (h2 : i < out.length),
        (out.get ⟨i, h2⟩).1 = (cfg.get ⟨i, h1⟩).1 ∧
        ∃ le fs,
          getIsEnabledForList (cfg.get ⟨i, h1⟩).1 (cfg.get ⟨i, h1⟩).2 = .ok le ∧
          initialiseFieldsForList le (cfg.get ⟨i, h1⟩).1 (cfg.get ⟨i, h1⟩).2 = .ok fs ∧
          (out.get ⟨i, h2⟩).2 = cascadeCreateUpdate
            { isEnabled := le, fields := fs,
              isSingleton := (cfg.get ⟨i, h1⟩).2.isSingleton.getD false,
              findMany := findManyArgs (cfg.get ⟨i, h1⟩).2 } := by
  cases hen : getIsEnabled cfg with
  | error e => simp [initialiseLists, hen] at h
  | ok en =>
    cases hpre : getListsWithInitialisedFields cfg en with
    | error e => simp [initialiseLists, hen, hpre] at h
    | ok pre =>
      simp only [initialiseLists, hen, hpre, ok_bind, pure_eq_ok,
        Except.ok.injEq] at h
      subst h
      have hF1 := getIsEnabled_forall₂ hen
      have hF2 := getListsWithInitialisedFields_forall₂ hpre
      have hlen1 : cfg.length = en.length := hF1.length_eq
      have hlenz : (cfg.zip en).length = cfg.length := by
        rw [List.length_zip, hlen1, Nat.min_self]
      have hlen2 : (cfg.zip en).length = pre.length := hF2.length_eq
      have hlenout : pre.length =
          (pre.map fun y => (y.1, cascadeCreateUpdate y.2)).length := by
        rw [List.length_map]
      constructor
      · rw [← hlenout, ← hlen2, hlenz]
      · intro i h1 h2
        have hiz : i < (cfg.zip en).length := by rw [hlenz]; exact h1
        have hipre : i < pre.length := by rw [← hlen2]; exact hiz
        have hien : i < en.length := by rw [← hlen1]; exact h1
        have hget2 := (List.forall₂_iff_get.mp hF2).2 i hiz hipre
        have hzip : (cfg.zip en).get ⟨i, hiz⟩ = (cfg.get ⟨i, h1⟩, en.get ⟨i, hien⟩) := by
          rw [List.get_eq_getElem, List.getElem_zip]
          rfl
        rw [hzip] at hget2
        obtain ⟨fs, hfs, hprei⟩ := hget2
        have hget1 := (List.forall₂_iff_get.mp hF1).2 i h1 hien
        obtain ⟨hkey, hle⟩ := hget1
        have hout : (pre.map fun y => (y.1, cascadeCreateUpdate y.2)).get ⟨i, h2⟩ =
            ((pre.get ⟨i, hipre⟩).1, cascadeCreateUpdate (pre.get ⟨i, hipre⟩).2) := by
          rw [List.get_eq_getElem, List.getElem_map]
          rfl
        rw [hout, hprei]
        exact ⟨rfl, (en.get ⟨i, hien⟩).2, fs, hle, hfs, rfl⟩

/-- A successfully initialised field's enablement comes from
`resolveFieldIsEnabled` on its descriptor. -/
theorem initialiseField_ok {le : IsEnabled} {k : String} {fc : FieldConfig}
    {g : InitialisedField} (h : initialiseField le k fc = .ok g) :
    resolveFieldIsEnabled le fc = .ok g.isEnabled ∧
      g.inputCreate = fc.inputCreate ∧ g.inputUpdate = fc.inputUpdate ∧
      g.inputUniqueWhere = fc.inputUniqueWhere ∧
      g.hasOutput = fc.hasOutput ∧
      g.dbFieldRelationTarget = fc.dbFieldRelationTarget := by
  cases t1 : throwIfNotAFilter fc.isFilterable k "isFilterable" with
  | error e => simp [initialiseField, t1] at h
  | ok u1 =>
    cases t2 : throwIfNotAFilter fc.isOrderable k "isOrderable" with
    | error e => simp [initialiseField, t1, t2] at h
    | ok u2 =>
      cases hr : resolveFieldIsEnabled le fc with
      | error e => simp [initialiseField, t1, t2, hr] at h
      | ok e =>
        simp only [initialiseField, t1, t2, hr, ok_bind, pure_eq_ok,
          Except.ok.injEq] at h
        subst h
        exact ⟨rfl, rfl, rfl, rfl, rfl, rfl⟩

/-- Every resolved field of a list comes from a configured field
descriptor with the same key. -/
theorem initialiseFieldsForList_mem {le : IsEnabled} {k : String}
    {lc : ListConfig} {fs : List (String × InitialisedField)}
    (h : initialiseFieldsForList le k lc = .ok fs)
    {fk : String} {f : InitialisedField} (hf : (fk, f) ∈ fs) :
    ∃ fc, (fk, fc) ∈ lc.fields ∧ initialiseField le k fc = .ok f := by
  obtain ⟨x, hx, hR⟩ := forall₂_mem_right (mapME_ok_iff.mp h) hf
  cases hi : initialiseField le k x.2 with
  | error e => rw [hi] at hR; simp at hR
  | ok g =>
    rw [hi] at hR
    simp only [map_ok, Except.ok.injEq, Prod.mk.injEq] at hR
    obtain ⟨h1, h2⟩ := hR
    refine ⟨x.2, ?_, ?_⟩
    · rw [← h1]; exact hx
    · rw [← h2]; exact hi

/-- The cascading pass leaves the field list untouched. -/
theorem cascade_fields (l : ListState) : (cascadeCreateUpdate l).fields = l.fields :=
  rfl

/-- `read` gates `filter` and `orderBy` in a resolved field enablement:
`filter`/`orderBy` is `read && …`, so a falsy `read` short-circuits both
to `false`. -/
theorem resolveFieldIsEnabled_read_gates {le : IsEnabled} {fc : FieldConfig}
    {fe : FieldIsEnabled} (h : resolveFieldIsEnabled le fc = .ok fe) :
    (fe.filter.truthy = true → fe.read = true) ∧
      (fe.orderBy.truthy = true → fe.read = true) := by
  by_cases homit : fc.«omit» = .jsbool true
  · simp only [resolveFieldIsEnabled, homit, if_true, reduceIte, pure_eq_ok,
      Except.ok.injEq] at h
    subst h
    exact ⟨fun ht => by simp [JsVal.truthy] at ht,
           fun ht => by simp [JsVal.truthy] at ht⟩
  · cases h1 : jsOptIncludes fc.«omit» "read" with
    | error e => simp [resolveFieldIsEnabled, homit, h1] at h
    | ok r =>
      cases h2 : jsOptIncludes fc.«omit» "update" with
      | error e => simp [resolveFieldIsEnabled, homit, h1, h2] at h
      | ok u =>
        cases h3 : jsOptIncludes fc.«omit» "create" with
        | error e => simp [resolveFieldIsEnabled, homit, h1, h2, h3] at h
        | ok c =>
          simp only [resolveFieldIsEnabled, homit, reduceIte, h1, h2, h3,
            ok_bind, pure_eq_ok, Except.ok.injEq] at h
          subst h
          cases r with
          | true =>
            exact ⟨fun ht => by simp [jsAnd, JsVal.truthy] at ht,
                   fun ht => by simp [jsAnd, JsVal.truthy] at ht⟩
          | false => exact ⟨fun _ => rfl, fun _ => rfl⟩

/-- Every entry of a successful `initialiseLists` run arises from some
configured list with the same key, via enablement resolution, field
initialisation, and the cascading-disablement pass. -/
theorem initialiseLists_mem {cfg : List (String × ListConfig)}
    {out : List (String × ListState)} {k : String} {l : ListState}
    (h : initialiseLists cfg = .ok out) (ho : (k, l) ∈ out) :
    ∃ lc le fs, (k, lc) ∈ cfg ∧
      getIsEnabledForList k lc = .ok le ∧
      initialiseFieldsForList le k lc = .ok fs ∧
      l = cascadeCreateUpdate
        { isEnabled := le, fields := fs,
          isSingleton := lc.isSingleton.getD false,
          findMany := findManyArgs lc } := by
  obtain ⟨hlen, hpoint⟩ := initialiseLists_get h
  obtain ⟨⟨j, hj⟩, hgetj⟩ := List.mem_iff_get.mp ho
  have h1 : j < cfg.length := by rw [hlen]; exact hj
  obtain ⟨hkey, le, fs, hle, hfs, hstate⟩ := hpoint j h1 hj
  rw [hgetj] at hkey hstate
  simp only at hkey hstate
  refine ⟨(cfg.get ⟨j, h1⟩).2, le, fs, ?_, ?_, ?_, hstate⟩
  · have hm := List.get_mem cfg j h1
    rwa [show cfg.get ⟨j, h1⟩ = (k, (cfg.get ⟨j, h1⟩).2) from by
      rw [hkey]] at hm
  · rw [hkey]; exact hle
  · rw [hkey]; exact hfs

/-- When the configured list keys are distinct, a resolved list's state is
determined by the configuration entry with the same key. -/
theorem initialiseLists_corresponds {cfg : List (String × ListConfig)}
    {out : List (String × ListState)} {k : String} {lc : ListConfig}
    {l : ListState} (hN : (cfg.map Prod.fst).Nodup)
    (h : initialiseLists cfg = .ok out) (hc : (k, lc) ∈ cfg) (ho : (k, l) ∈ out) :
    ∃ le fs, getIsEnabledForList k lc = .ok le ∧
      initialiseFieldsForList le k lc = .ok fs ∧
      l = cascadeCreateUpdate
        { isEnabled := le, fields := fs,
          isSingleton := lc.isSingleton.getD false,
          findMany := findManyArgs lc } := by
  obtain ⟨hlen, hpoint⟩ := initialiseLists_get h
  obtain ⟨⟨j, hj⟩, hgetj⟩ := List.mem_iff_get.mp ho
  obtain ⟨⟨i, hi⟩, hgeti⟩ := List.mem_iff_get.mp hc
  have h1 : j < cfg.length := by rw [hlen]; exact hj
  obtain ⟨hkey, le, fs, hle, hfs, hstate⟩ := hpoint j h1 hj
  rw [hgetj] at hkey hstate
  simp only at hkey hstate
  have hij : i = j := by
    have hmi : i < (cfg.map Prod.fst).length := by rw [List.length_map]; exact hi
    have hmj : j < (cfg.map Prod.fst).length := by rw [List.length_map]; exact h1
    have hgg : (cfg.map Prod.fst).get ⟨i, hmi⟩ = (cfg.map Prod.fst).get ⟨j, hmj⟩ := by
      rw [List.get_eq_getElem, List.get_eq_getElem, List.getElem_map,
        List.getElem_map]
      rw [← List.get_eq_getElem cfg ⟨i, hi⟩, ← List.get_eq_getElem cfg ⟨j, h1⟩]
      rw [hgeti, ← hkey]
    exact congrArg Fin.val (hN.get_inj_iff.mp hgg)
  subst hij
  rw [hgeti] at hkey hle hfs hstate
  simp only at hkey hle hfs hstate
  exact ⟨le, fs, hle, hfs, hstate⟩

/-- A value with no `includes` method throws the `TypeError` when the
omit-interpretation code calls `.includes` on it. -/
theorem jsIncludes_no_method {x : JsVal} (h : hasIncludesMethod x = false)
    (s : String) :
    jsIncludes x s = .error "TypeError: omit.includes is not a function" := by
  cases x <;> first | rfl | simp [hasIncludesMethod] at h

/-- In an association list with distinct keys, a key determines its
value. -/
theorem assoc_nodup_unique {α : Type} {l : List (String × α)}
    (hN : (l.map Prod.fst).Nodup) {k : String} {a b : α}
    (h1 : (k, a) ∈ l) (h2 : (k, b) ∈ l) : a = b := by
  induction l with
  | nil => cases h1
  | cons x xs ih =>
    rw [List.map_cons, List.nodup_cons] at hN
    rcases List.mem_cons.mp h1 with h1e | h1'
    · rcases List.mem_cons.mp h2 with h2e | h2'
      · exact congrArg Prod.snd (h1e.trans h2e.symm)
      · exfalso
        apply hN.1
        have hk : k ∈ xs.map Prod.fst := List.mem_map_of_mem Prod.fst h2'
        rw [← h1e]
        exact hk
    · rcases List.mem_cons.mp h2 with h2e | h2'
      · exfalso
        apply hN.1
        have hk : k ∈ xs.map Prod.fst := List.mem_map_of_mem Prod.fst h1'
        rw [← h2e]
        exact hk
      · exact ih hN.2 h1' h2'

/-! ## The claims -/

/-- C1: for every list resolved by `initialiseLists` and every resolved
field of that list, a truthy `filter` enablement implies `read = true`,
and a truthy `orderBy` enablement implies `read = true`. -/
theorem claim1_read_gates_filter_orderBy
    (cfg : List (String × ListConfig)) (out : List (String × ListState))
    (hres : initialiseLists cfg = .ok out)
    (k : String) (l : ListState) (hl : (k, l) ∈ out)
    (fk : String) (f : InitialisedField) (hf : (fk, f) ∈ l.fields) :
    (f.isEnabled.filter.truthy = true → f.isEnabled.read = true) ∧
      (f.isEnabled.orderBy.truthy = true → f.isEnabled.read = true) := by
  obtain ⟨lc, le, fs, _, hle, hfs, hcas⟩ := initialiseLists_mem hres hl
  have hfields : l.fields = fs := by rw [hcas]; rfl
  rw [hfields] at hf
  obtain ⟨fc, _, hfld⟩ := initialiseFieldsForList_mem hfs hf
  exact resolveFieldIsEnabled_read_gates (initialiseField_ok hfld).1

/-- C1 witness: the resolved `title` field of the one-list configuration
`c1Cfg` satisfies both gates. -/
theorem claim1_witness :
    (c1Field.isEnabled.filter.truthy = true → c1Field.isEnabled.read = true) ∧
      (c1Field.isEnabled.orderBy.truthy = true → c1Field.isEnabled.read = true) :=
  claim1_read_gates_filter_orderBy c1Cfg c1Out (by decide) "Post" c1List
    (by decide) "title" c1Field (by decide)

/-- C2: for every resolved list, if every resolved field has `create`
disabled then the list's resolved `create` enablement is `false` (whatever
the list-level declaration said), and symmetrically for `update`. -/
theorem claim2_cascading_disablement
    (cfg : List (String × ListConfig)) (out : List (String × ListState))
    (hres : initialiseLists cfg = .ok out)
    (k : String) (l : ListState) (hl : (k, l) ∈ out) :
    ((∀ p ∈ l.fields, p.2.isEnabled.create = false) →
        l.isEnabled.create = false) ∧
      ((∀ p ∈ l.fields, p.2.isEnabled.update = false) →
        l.isEnabled.update = false) := by
  obtain ⟨lc, le, fs, _, hle, hfs, hcas⟩ := initialiseLists_mem hres hl
  have hfields : l.fields = fs := by rw [hcas]; rfl
  constructor
  · intro hall
    rw [hfields] at hall
    have hno : hasAnEnabledCreateField
        { isEnabled := le, fields := fs,
          isSingleton := lc.isSingleton.getD false,
          findMany := findManyArgs lc } = false := by
      simp only [hasAnEnabledCreateField, List.any_eq_false]
      intro p hp
      simp [hall p hp]
    rw [hcas]
    simp [cascadeCreateUpdate, hno]
  · intro hall
    rw [hfields] at hall
    have hno : hasAnEnabledUpdateField
        { isEnabled := le, fields := fs,
          isSingleton := lc.isSingleton.getD false,
          findMany := findManyArgs lc } = false := by
      simp only [hasAnEnabledUpdateField, List.any_eq_false]
      intro p hp
      simp [hall p hp]
    rw [hcas]
    simp [cascadeCreateUpdate, hno]

/-- C2 witness: in `c2Cfg` the only field omits create and update, so the
resolved list has both capabilities forced off. -/
theorem claim2_witness :
    c2List.isEnabled.create = false ∧ c2List.isEnabled.update = false :=
  ⟨(claim2_cascading_disablement c2Cfg c2Out (by decide) "Note" c2List
      (by decide)).1 (by decide),
   (claim2_cascading_disablement c2Cfg c2Out (by decide) "Note" c2List
      (by decide)).2 (by decide)⟩

/-- C5: a list declared with `graphql.omit: true` resolves with all seven
enablement flags false (`filter`/`orderBy` resolve to the JS value
`false`). -/
theorem claim5_omit_true_disables_everything
    (cfg : List (String × ListConfig)) (out : List (String × ListState))
    (hN : (cfg.map Prod.fst).Nodup)
    (hres : initialiseLists cfg = .ok out)
    (k : String) (lc : ListConfig) (hc : (k, lc) ∈ cfg)
    (homit : lc.«omit» = .jsbool true)
    (l : ListState) (ho : (k, l) ∈ out) :
    l.isEnabled = { type := false, query := false, create := false,
                    update := false, delete := false,
                    filter := .jsbool false, orderBy := .jsbool false } := by
  obtain ⟨le, fs, hle, hfs, hcas⟩ := initialiseLists_corresponds hN hres hc ho
  have hleq : le = { type := false, query := false, create := false,
                     update := false, delete := false,
                     filter := .jsbool false, orderBy := .jsbool false } := by
    simp only [getIsEnabledForList, homit, JsVal.truthy, Bool.not_true,
      Bool.false_eq_true, reduceIte, pure_eq_ok, ok_bind,
      Except.ok.injEq] at hle
    exact hle.symm
  rw [hcas, hleq]
  simp [cascadeCreateUpdate, ite_self]

/-- C5 witness: the `Secret` list of `c5Cfg` is declared with
`omit: true` and resolves fully disabled. -/
theorem claim5_witness :
    c5List.isEnabled = { type := false, query := false, create := false,
                         update := false, delete := false,
                         filter := .jsbool false, orderBy := .jsbool false } :=
  claim5_omit_true_disables_everything c5Cfg c5Out (by decide) (by decide)
    "Secret" c5Lc (by decide) (by decide) c5List (by decide)

/-- C9: the cascading-disablement step only touches the list-level
`create` and `update` flags — `type`, `query`, `delete`, `filter`,
`orderBy`, the whole resolved field list (hence every field-level
enablement flag), the singleton flag and the query arguments are
unchanged, for every list state, including one whose fields are all
disabled. -/
theorem claim9_cascade_frame (l : ListState) :
    (cascadeCreateUpdate l).isEnabled.type = l.isEnabled.type ∧
      (cascadeCreateUpdate l).isEnabled.query = l.isEnabled.query ∧
      (cascadeCreateUpdate l).isEnabled.delete = l.isEnabled.delete ∧
      (cascadeCreateUpdate l).isEnabled.filter = l.isEnabled.filter ∧
      (cascadeCreateUpdate l).isEnabled.orderBy = l.isEnabled.orderBy ∧
      (cascadeCreateUpdate l).fields = l.fields ∧
      (cascadeCreateUpdate l).isSingleton = l.isSingleton ∧
      (cascadeCreateUpdate l).findMany = l.findMany :=
  ⟨rfl, rfl, rfl, rfl, rfl, rfl, rfl, rfl⟩

/-- C3: a field that is read-disabled, or is a relation field whose
target list's `query` enablement is off, contributes nothing to the
output type; consequently, when every field carrying a key satisfies that
condition (and the key is not an extra output field of anything), the key
does not appear in the output type's field set. -/
theorem claim3_output_suppression :
    (∀ (qe : String → Bool) (k : String) (f : InitialisedField),
        (f.isEnabled.read = false ∨ relationTargetQueryDisabled qe f = true) →
        outputEntryForField qe k f = []) ∧
      (∀ (qe : String → Bool) (fields : List (String × InitialisedField))
          (k : String),
        (∀ p ∈ fields, p.1 = k →
          (p.2.isEnabled.read = false ∨
            relationTargetQueryDisabled qe p.2 = true)) →
        (∀ p ∈ fields, k ∉ p.2.extraOutputFieldKeys) →
        k ∉ outputTypeFieldKeys qe fields) := by
  have hentry : ∀ (qe : String → Bool) (k : String) (f : InitialisedField),
      (f.isEnabled.read = false ∨ relationTargetQueryDisabled qe f = true) →
      outputEntryForField qe k f = [] := by
    intro qe k f hcond
    rcases hcond with hread | hrel
    · simp [outputEntryForField, hread]
    · simp [outputEntryForField, hrel]
  refine ⟨hentry, ?_⟩
  intro qe fields k hall hx hmem
  rw [outputTypeFieldKeys, List.mem_flatMap] at hmem
  obtain ⟨p, hp, hkp⟩ := hmem
  by_cases hkey : p.1 = k
  · rw [hentry qe p.1 p.2 (hall p hp hkey)] at hkp
    cases hkp
  · rw [outputEntryForField] at hkp
    split at hkp
    · cases hkp
    · rcases List.mem_cons.mp hkp with heq | hextra
      · exact hkey heq.symm
      · exact hx p hp hextra

/-- C3 witness: the relation field `author` targeting the query-disabled
`Hidden` list contributes nothing, and `author` is absent from the output
field set. -/
theorem claim3_witness :
    outputEntryForField c3Qe "author" c3RelField = [] ∧
      "author" ∉ outputTypeFieldKeys c3Qe c3Fields :=
  ⟨claim3_output_suppression.1 c3Qe "author" c3RelField (Or.inr (by decide)),
   claim3_output_suppression.2 c3Qe c3Fields "author" (by decide) (by decide)⟩

/-- C4: for every resolved list whose `type` enablement is true, the four
relation-input variants all exist; each contains a nested `create` key
exactly when the list's final (post-cascading) `create` enablement is
true, and each contains `connect` unconditionally. -/
theorem claim4_relate_to_variants
    (cfg : List (String × ListConfig)) (out : List (String × ListState))
    (hres : initialiseLists cfg = .ok out)
    (k : String) (l : ListState) (ho : (k, l) ∈ out)
    (ht : l.isEnabled.type = true) :
    ∃ v1 v2 v3 v4,
      listRelateTo l = { manyForCreate := some v1, manyForUpdate := some v2,
                         oneForCreate := some v3, oneForUpdate := some v4 } ∧
        ∀ v ∈ [v1, v2, v3, v4],
          (("create" ∈ v) ↔ l.isEnabled.create = true) ∧ "connect" ∈ v := by
  refine ⟨relateToManyForCreateKeys l.isEnabled,
    relateToManyForUpdateKeys l.isEnabled,
    relateToOneForCreateKeys l.isEnabled,
    relateToOneForUpdateKeys l.isEnabled, by simp [listRelateTo, ht], ?_⟩
  intro v hv
  simp only [List.mem_cons, List.not_mem_nil, or_false] at hv
  cases hcr : l.isEnabled.create <;>
    rcases hv with rfl | rfl | rfl | rfl <;>
    simp [relateToManyForCreateKeys, relateToManyForUpdateKeys,
      relateToOneForCreateKeys, relateToOneForUpdateKeys, hcr]

/-- C4 witness: the `Post` list of `c1Cfg` resolves with `type` and
`create` enabled, so all four variants contain both `create` and
`connect`. -/
theorem claim4_witness :
    ∃ v1 v2 v3 v4,
      listRelateTo c1List = { manyForCreate := some v1, manyForUpdate := some v2,
                              oneForCreate := some v3, oneForUpdate := some v4 } ∧
        ∀ v ∈ [v1, v2, v3, v4],
          (("create" ∈ v) ↔ c1List.isEnabled.create = true) ∧ "connect" ∈ v :=
  claim4_relate_to_variants c1Cfg c1Out (by decide) "Post" c1List (by decide)
    (by decide)

/-- C10: every resolved list's paginated-query arguments default `where`
to `{ id: { equals: '1' } }` for a singleton list and to `{}` otherwise,
give `take` no default, and default `skip` to `0`. -/
theorem claim10_find_many_defaults
    (cfg : List (String × ListConfig)) (out : List (String × ListState))
    (hN : (cfg.map Prod.fst).Nodup)
    (hres : initialiseLists cfg = .ok out)
    (k : String) (lc : ListConfig) (hc : (k, lc) ∈ cfg)
    (l : ListState) (ho : (k, l) ∈ out) :
    l.findMany.whereDefault =
        some (if lc.isSingleton = some true
          then [("id", [("equals", "1")])] else []) ∧
      l.findMany.takeDefault = none ∧
      l.findMany.skipDefault = some 0 := by
  obtain ⟨le, fs, hle, hfs, hcas⟩ := initialiseLists_corresponds hN hres hc ho
  rw [hcas]
  exact ⟨rfl, rfl, rfl⟩

/-- C10 witness: the singleton `Config` list defaults `where` to the
identity filter. -/
theorem claim10_witness :
    c10List.findMany.whereDefault =
        some (if c10Lc.isSingleton = some true
          then [("id", [("equals", "1")])] else []) ∧
      c10List.findMany.takeDefault = none ∧
      c10List.findMany.skipDefault = some 0 :=
  claim10_find_many_defaults c10Cfg c10Out (by decide) (by decide)
    "Config" c10Lc (by decide) c10List (by decide)

/-- C6 counterexample: a `graphql.omit` of `'query'` — a string, hence
neither `true`, `undefined`, nor an operation set — does not raise a
configuration error: the whole configuration resolves, with the string
interpreted by substring containment (`query` ends up disabled in
`c6Out`). -/
theorem claim6_counterexample :
    c6Lc.«omit» = .str "query" ∧ initialiseLists c6Cfg = .ok c6Out := by
  decide

/-- C6 (amended): an omit value other than `true`/`undefined` is never
vetted.  One without an `includes` method (`false`, `null`, a function, a
number) aborts resolution with a `TypeError`; an array — whatever its
elements — is accepted via membership; a non-empty string is accepted and
interpreted via substring containment. -/
theorem claim6_amended :
    (∀ (k : String) (lc : ListConfig),
        hasIncludesMethod lc.«omit» = false →
        lc.«omit» ≠ .jsbool true → lc.«omit» ≠ .undef →
        ∃ e, getIsEnabledForList k lc = .error e) ∧
      (∀ (k : String) (lc : ListConfig) (ops : List String),
        lc.«omit» = .arr ops →
        getIsEnabledForList k lc =
          .ok { type := true, query := !ops.contains "query",
                create := !ops.contains "create",
                update := !ops.contains "update",
                delete := !ops.contains "delete",
                filter := jsCoalesce lc.defaultIsFilterable (.jsbool true),
                orderBy := jsCoalesce lc.defaultIsOrderable (.jsbool true) }) ∧
      (∀ (k : String) (lc : ListConfig) (s : String),
        lc.«omit» = .str s → s.isEmpty = false →
        getIsEnabledForList k lc =
          .ok { type := true, query := !strIncludes s "query",
                create := !strIncludes s "create",
                update := !strIncludes s "update",
                delete := !strIncludes s "delete",
                filter := jsCoalesce lc.defaultIsFilterable (.jsbool true),
                orderBy := jsCoalesce lc.defaultIsOrderable (.jsbool true) }) := by
  refine ⟨?_, ?_, ?_⟩
  · intro k lc hno hnt hnu
    by_cases htr : lc.«omit».truthy = true
    · exact ⟨"TypeError: omit.includes is not a function",
        by simp [getIsEnabledForList, htr, hnt, hnu, jsIncludes_no_method hno]⟩
    · cases t1 : throwIfNotAFilter lc.defaultIsFilterable k "defaultIsFilterable" with
      | error e => exact ⟨e, by simp [getIsEnabledForList, htr, t1]⟩
      | ok u1 =>
        cases t2 : throwIfNotAFilter lc.defaultIsOrderable k "defaultIsOrderable" with
        | error e => exact ⟨e, by simp [getIsEnabledForList, htr, t1, t2]⟩
        | ok u2 =>
          exact ⟨"TypeError: omit.includes is not a function",
            by simp [getIsEnabledForList, htr, t1, t2, hnt, hnu,
              jsIncludes_no_method hno]⟩
  · intro k lc ops hval
    simp [getIsEnabledForList, hval, JsVal.truthy, jsIncludes]
  · intro k lc s hval hs
    simp [getIsEnabledForList, hval, JsVal.truthy, hs, jsIncludes]

/-- C6 witness: `omit: null` aborts with an error, while `omit: 'query'`
resolves and disables `query` by substring containment. -/
theorem claim6_witness :
    (∃ e, getIsEnabledForList "Bad" c6NullLc = .error e) ∧
      getIsEnabledForList "Post6" c6Lc =
        .ok { type := true, query := !strIncludes "query" "query",
              create := !strIncludes "query" "create",
              update := !strIncludes "query" "update",
              delete := !strIncludes "query" "delete",
              filter := jsCoalesce c6Lc.defaultIsFilterable (.jsbool true),
              orderBy := jsCoalesce c6Lc.defaultIsOrderable (.jsbool true) } :=
  ⟨claim6_amended.1 "Bad" c6NullLc (by decide) (by decide) (by decide),
   claim6_amended.2.2 "Post6" c6Lc "query" (by decide) (by decide)⟩

/-- C7 counterexample: with `graphql.omit: ['query']` (truthy) and the
malformed `defaultIsFilterable: 'yes'`, resolution succeeds — no fatal
configuration error is raised, and the string even leaks into the
resolved `filter` enablement (see `c7Out`). -/
theorem claim7_counterexample :
    isBoolUndefOrFunction c7Lc.defaultIsFilterable = false ∧
      initialiseLists c7Cfg = .ok c7Out := by
  decide

/-- C7 (amended): a malformed `defaultIsFilterable`/`defaultIsOrderable`
is a fatal configuration error only when the list's `graphql.omit` is
falsy; when omit is `true` or an operation array, the defaults are not
validated and enablement resolution succeeds regardless. -/
theorem claim7_amended :
    (∀ (k : String) (lc : ListConfig),
        lc.«omit».truthy = false →
        (isBoolUndefOrFunction lc.defaultIsFilterable = false ∨
          isBoolUndefOrFunction lc.defaultIsOrderable = false) →
        ∃ e, getIsEnabledForList k lc = .error e) ∧
      (∀ (k : String) (lc : ListConfig),
        (lc.«omit» = .jsbool true ∨ ∃ ops, lc.«omit» = .arr ops) →
        ∃ en, getIsEnabledForList k lc = .ok en) := by
  constructor
  · intro k lc htr hmal
    cases t1 : throwIfNotAFilter lc.defaultIsFilterable k "defaultIsFilterable" with
    | error e => exact ⟨e, by simp [getIsEnabledForList, htr, t1]⟩
    | ok u1 =>
      rcases hmal with hf | hordr
      · exact absurd t1 (by simp [throwIfNotAFilter, hf])
      · cases t2 : throwIfNotAFilter lc.defaultIsOrderable k "defaultIsOrderable" with
        | error e => exact ⟨e, by simp [getIsEnabledForList, htr, t1, t2]⟩
        | ok u2 => exact absurd t2 (by simp [throwIfNotAFilter, hordr])
  · intro k lc hval
    rcases hval with htrue | ⟨ops, harr⟩
    · exact ⟨{ type := false, query := false, create := false, update := false,
               delete := false, filter := .jsbool false, orderBy := .jsbool false },
        by simp [getIsEnabledForList, htrue, JsVal.truthy]⟩
    · exact ⟨{ type := true, query := !ops.contains "query",
               create := !ops.contains "create",
               update := !ops.contains "update",
               delete := !ops.contains "delete",
               filter := jsCoalesce lc.defaultIsFilterable (.jsbool true),
               orderBy := jsCoalesce lc.defaultIsOrderable (.jsbool true) },
        by simp [getIsEnabledForList, harr, JsVal.truthy, jsIncludes]⟩

/-- C7 witness: a falsy omit with a malformed default errors; `c7Lc`
(truthy omit, same malformed default) resolves. -/
theorem claim7_witness :
    (∃ e, getIsEnabledForList "Bad7" c7FalsyLc = .error e) ∧
      (∃ en, getIsEnabledForList "Draft" c7Lc = .ok en) :=
  ⟨claim7_amended.1 "Bad7" c7FalsyLc (by decide) (Or.inl (by decide)),
   claim7_amended.2 "Draft" c7Lc (Or.inr ⟨["query"], by decide⟩)⟩

/-- C8 counterexample: in the resolved `Item` list the declared field
`id` does not qualify for the unique-filter input (it declares no
unique-lookup argument), yet the key `id` still appears in the input —
the claimed "appears iff qualifies" equivalence fails at the `id` key. -/
theorem claim8_counterexample :
    initialiseLists c8Cfg = .ok c8Out ∧
      ("id", c1Field) ∈ c8List.fields ∧
      "id" ∈ uniqueWhereKeys c8List.fields ∧
      uniqueWhereQualifies c1Field = false := by
  decide

/-- C8 (amended): every resolved list's unique-filter input contains
`id`; a declared field key other than `id` appears in it exactly when the
field declares a unique-lookup argument and has truthy `read` and
`filter` enablement (the `id` key is present regardless of whether a
field named `id` qualifies). -/
theorem claim8_amended
    (cfg : List (String × ListConfig)) (out : List (String × ListState))
    (hres : initialiseLists cfg = .ok out)
    (k : String) (l : ListState) (ho : (k, l) ∈ out)
    (hN : (l.fields.map Prod.fst).Nodup) :
    "id" ∈ uniqueWhereKeys l.fields ∧
      ∀ (fk : String) (f : InitialisedField), (fk, f) ∈ l.fields →
        fk ≠ "id" →
        ((fk ∈ uniqueWhereKeys l.fields) ↔ uniqueWhereQualifies f = true) := by
  constructor
  · simp only [uniqueWhereKeys]
    split
    · next hcon => simpa using hcon
    · exact List.mem_append_right _ (by simp)
  · intro fk f hmem hne
    have hiff : fk ∈ uniqueWhereKeys l.fields ↔
        fk ∈ l.fields.filterMap
          (fun p => if uniqueWhereQualifies p.2 then some p.1 else none) := by
      simp only [uniqueWhereKeys]
      split
      · exact Iff.rfl
      · rw [List.mem_append]
        simp [hne]
    rw [hiff, List.mem_filterMap]
    constructor
    · rintro ⟨p, hp, hpe⟩
      by_cases hq : uniqueWhereQualifies p.2 = true
      · rw [if_pos hq] at hpe
        have hfk : p.1 = fk := by injection hpe
        have hp2 : (fk, p.2) ∈ l.fields := by
          rw [← hfk]
          exact hp
        rw [assoc_nodup_unique hN hmem hp2]
        exact hq
      · rw [if_neg hq] at hpe
        cases hpe
    · intro hq
      exact ⟨(fk, f), hmem, by simp [hq]⟩

/-- C8 witness: in the resolved `Doc` list, `id` is always present and
the qualifying `slug` field's key appears. -/
theorem claim8_witness :
    "id" ∈ uniqueWhereKeys c8wList.fields ∧
      ("slug" ∈ uniqueWhereKeys c8wList.fields ↔
        uniqueWhereQualifies c8wSlugField = true) :=
  ⟨(claim8_amended c8wCfg c8wOut (by decide) "Doc" c8wList (by decide)
      (by decide)).1,
   (claim8_amended c8wCfg c8wOut (by decide) "Doc" c8wList (by decide)
      (by decide)).2 "slug" c8wSlugField (by decide) (by decide)⟩

end Keystone
